import Mathlib

/-! Verification of the LogViewer core against its specification.

Shallow embedding of the LogViewer repository's core components:

* `FilterManager` — `src/src/managers/filter_manager.py` (identical copy in
  `src/FileUpdater.py`): six filter modes, history, regex error state.
* `FileManager` — `src/src/managers/file_manager.py`: BOM detection, tailing,
  rotation/truncation handling, NUL-ratio encoding heuristic.
* `TailReader` — the legacy tailer in `src/FileUpdater.py` (its `open` honours
  `start_at_end`, unlike the current `FileManager.open`).
* `PyDeque` — model of Python's `collections.deque` with `maxlen`, as used for
  the line buffer in `src/FileUpdater.py` (`_line_buffer`, `_buffer_trim`) and,
  without a bound, in `src/src/ui/main_window.py`.

Machine strings are Lean `String`s; file bytes are `List Nat` (byte values).
Python's `str.lower` is modelled by ASCII case folding (`lowerStr`), which
agrees with it on the ASCII text the claims exercise.
-/

namespace LogViewer

/-! Section: Python standard-library models (not repository code)

The repository calls into CPython's `re` module and `bytes.decode`.  Those are
not under `src/`, so they are modelled, minimally but executably, from what the
spec says about them. -/

/-- Parenthesis-balance scan used by `reAccepts`: `k` is the number of open
groups.  An unmatched `)` fails immediately; unmatched `(` fails at the end. -/
def parenScan : List Char → Nat → Bool
  | [], 0 => true
  | [], _ + 1 => false
  | c :: rest, k =>
    if c = '(' then parenScan rest (k + 1)
    else if c = ')' then
      match k with
      | 0 => false
      | k' + 1 => parenScan rest k'
    else parenScan rest k

/-- Modelled from the spec: CPython's `re.compile` (standard library, not in
`src/`).  The spec's example states that the pattern `"("` fails to compile
("missing ), unterminated subpattern").  Compilation is modelled as succeeding
exactly when the pattern's parentheses are balanced — faithful for the literal
and single-`(` patterns the claims exercise. -/
def reAccepts (pat : String) : Bool :=
  parenScan pat.data 0

/-- Modelled from the spec: the error message `str(e)` stored on a regex
compilation failure.  Only its presence (not its text) is observable in the
claims. -/
def reErrorMessage (pat : String) : String :=
  "missing ), unterminated subpattern: " ++ pat

/-- ASCII lower-casing of one character.  Python's `str.lower` agrees with
this on ASCII text, which is all the claims exercise. -/
def lowerChar (c : Char) : Char :=
  if 'A' ≤ c ∧ c ≤ 'Z' then Char.ofNat (c.toNat + 32) else c

/-- Python's `str.lower`, modelled characterwise (ASCII case folding). -/
def lowerStr (s : String) : String :=
  ⟨s.data.map lowerChar⟩

/-- Python's `str.startswith`. -/
def pyStartsWith (hay needle : String) : Bool :=
  needle.data.isPrefixOf hay.data

/-- Python's `str.endswith`. -/
def pyEndsWith (hay needle : String) : Bool :=
  needle.data.isSuffixOf hay.data

/-- Contiguous-sublist test: does `needle` occur inside `hay`?  This is the
model of Python's substring operator `in` (`needle in hay`). -/
def listHasInfix (needle : List Char) : List Char → Bool
  | [] => needle.isEmpty
  | c :: t => needle.isPrefixOf (c :: t) || listHasInfix needle t

/-- Python's `needle in hay` on strings. -/
def strIn (needle hay : String) : Bool :=
  listHasInfix needle.data hay.data

/-- Modelled from the spec: unanchored `re` search (`compiled.search(line)`),
case-folded when the pattern was compiled with `IGNORECASE`.  Modelled for
literal patterns (no metacharacters), the only kind the claims evaluate. -/
def reSearch (pat : String) (caseSensitive : Bool) (line : String) : Bool :=
  if caseSensitive then strIn pat line
  else strIn (lowerStr pat) (lowerStr line)

/-! Section: FilterManager — src/src/managers/filter_manager.py -/

/-- State of `FilterManager` (`__init__`, lines 35–43).  `compiled_regex`
holds the pattern text and the case flag it was compiled with (standing in for
the CPython pattern object). -/
structure FilterManager where
  current_filter : String
  current_mode : String
  case_sensitive : Bool
  filter_history : List String
  max_history : Nat
  compiled_regex : Option (String × Bool)
  last_error : Option String
  deriving Repr, DecidableEq

/-- `FilterManager.__init__` with the defaults from
`src/src/utils/constants.py` (`DEFAULT_FILTER_MODE = "contains"`,
`MAX_FILTER_HISTORY = 20`). -/
def FilterManager.init : FilterManager :=
  { current_filter := ""
    current_mode := "contains"
    case_sensitive := false
    filter_history := []
    max_history := 20
    compiled_regex := none
    last_error := none }

/-- `FilterManager._add_to_history` (lines 69–80): insert at the front when
non-empty and not already present; drop the last entry when over
`max_history`. -/
def FilterManager.add_to_history (s : FilterManager) (text : String) :
    FilterManager :=
  if text ≠ "" ∧ text ∉ s.filter_history then
    let h := text :: s.filter_history
    { s with filter_history := if h.length > s.max_history then h.dropLast else h }
  else s

/-- `FilterManager._compile_regex` (lines 82–97): clear both fields, then when
the mode is `regex` and the filter non-empty, compile; on failure store the
error message. -/
def FilterManager.compile_regex (s : FilterManager) : FilterManager :=
  let s := { s with compiled_regex := none, last_error := none }
  if s.current_mode = "regex" ∧ s.current_filter ≠ "" then
    if reAccepts s.current_filter then
      { s with compiled_regex := some (s.current_filter, s.case_sensitive) }
    else
      { s with last_error := some (reErrorMessage s.current_filter) }
  else s

/-- `FilterManager.set_filter` (lines 45–67): update mode / case sensitivity
when supplied; when the text differs from the current filter, store it, add to
history, recompile, and report `True`. -/
def FilterManager.set_filter (s : FilterManager) (text : String)
    (mode : Option String) (case_sensitive : Option Bool) :
    Bool × FilterManager :=
  let s := match mode with
    | some m => { s with current_mode := m }
    | none => s
  let s := match case_sensitive with
    | some b => { s with case_sensitive := b }
    | none => s
  if text ≠ s.current_filter then
    let s := { s with current_filter := text }
    let s := s.add_to_history text
    let s := s.compile_regex
    (true, s)
  else
    (false, s)

/-- `FilterManager._contains_match` (lines 134–146): Python `in`, i.e.
substring containment, case-folded unless `case_sensitive`. -/
def FilterManager.contains_match (s : FilterManager) (line : String) : Bool :=
  if s.case_sensitive then strIn s.current_filter line
  else strIn (lowerStr s.current_filter) (lowerStr line)

/-- `FilterManager._starts_with_match` (lines 148–160). -/
def FilterManager.starts_with_match (s : FilterManager) (line : String) :
    Bool :=
  if s.case_sensitive then pyStartsWith line s.current_filter
  else pyStartsWith (lowerStr line) (lowerStr s.current_filter)

/-- `FilterManager._ends_with_match` (lines 162–174). -/
def FilterManager.ends_with_match (s : FilterManager) (line : String) : Bool :=
  if s.case_sensitive then pyEndsWith line s.current_filter
  else pyEndsWith (lowerStr line) (lowerStr s.current_filter)

/-- `FilterManager._regex_match` (lines 176–188): search with the compiled
pattern when present, else `False`. -/
def FilterManager.regex_match (s : FilterManager) (line : String) : Bool :=
  match s.compiled_regex with
  | some (pat, cs) => reSearch pat cs line
  | none => false

/-- `FilterManager._exact_match` (lines 190–202): whole-line equality,
case-folded unless `case_sensitive`.  Note: no terminator stripping. -/
def FilterManager.exact_match (s : FilterManager) (line : String) : Bool :=
  if s.case_sensitive then line = s.current_filter
  else lowerStr line = lowerStr s.current_filter

/-- `FilterManager._not_contains_match` (lines 204–214). -/
def FilterManager.not_contains_match (s : FilterManager) (line : String) :
    Bool :=
  !(s.contains_match line)

/-- `FilterManager.matches` (lines 99–132): empty filter always matches;
`last_error` set always fails; otherwise dispatch on the mode string with
`contains` as the fallback for unknown modes. -/
def FilterManager.matches (s : FilterManager) (line : String) : Bool :=
  if s.current_filter = "" then true
  else if s.last_error.isSome then false
  else if s.current_mode = "contains" then s.contains_match line
  else if s.current_mode = "starts_with" then s.starts_with_match line
  else if s.current_mode = "ends_with" then s.ends_with_match line
  else if s.current_mode = "regex" then s.regex_match line
  else if s.current_mode = "exact" then s.exact_match line
  else if s.current_mode = "not_contains" then s.not_contains_match line
  else s.contains_match line

/-- `FilterManager.clear_filter` (lines 251–255). -/
def FilterManager.clear_filter (s : FilterManager) : FilterManager :=
  { s with current_filter := "", compiled_regex := none, last_error := none }

/-- `has_error` as exposed by `FilterManager.get_filter_info`
(lines 216–231): `bool(self.last_error)`. -/
def FilterManager.has_error (s : FilterManager) : Bool :=
  s.last_error.isSome

/-! Section: Byte-level decoding — model of Python's `bytes.decode(errors="replace")`

`bytes.decode` is CPython standard library, not repository code; it is
modelled executably below.  The model is exact for ASCII payloads and for the
code-unit structure of UTF-16 (BMP scalars); non-ASCII UTF-8 sequences and
surrogate pairs are mapped to the replacement character, which no claim
inspects. -/

/-- The Unicode replacement character U+FFFD used by `errors="replace"`. -/
def replacementChar : Char := Char.ofNat 0xFFFD

/-- A Unicode code point as a `Char`, replacing surrogates / out-of-range
values exactly as `errors="replace"` would. -/
def scalarChar (c : Nat) : Char :=
  if c < 0xD800 ∨ (0xDFFF < c ∧ c < 0x110000) then Char.ofNat c
  else replacementChar

/-- One byte decoded as UTF-8: exact on ASCII; any non-ASCII byte stands for
a replaced (or here unmodelled multi-byte) sequence. -/
def utf8Byte (b : Nat) : Char :=
  if b < 128 then Char.ofNat b else replacementChar

/-- UTF-16 code units from a little-endian byte stream; a dangling final byte
becomes U+FFFD (as `errors="replace"` produces). -/
def utf16leUnits : List Nat → List Nat
  | lo :: hi :: rest => (lo + 256 * hi) :: utf16leUnits rest
  | [_] => [0xFFFD]
  | [] => []

/-- UTF-16 code units from a big-endian byte stream. -/
def utf16beUnits : List Nat → List Nat
  | hi :: lo :: rest => (256 * hi + lo) :: utf16beUnits rest
  | [_] => [0xFFFD]
  | [] => []

/-- Strip a UTF-8 signature (`EF BB BF`) if present (the `utf-8-sig` codec). -/
def stripUtf8Sig (data : List Nat) : List Nat :=
  if [0xef, 0xbb, 0xbf].isPrefixOf data then data.drop 3 else data

/-- Modelled from the spec: Python's `bytes.decode(encoding, errors="replace")`
(standard library, not in `src/`): lossy replacement of invalid sequences,
never an error for a supported encoding name. -/
def pyDecode (enc : String) (data : List Nat) : String :=
  if enc = "utf-16-le" then ⟨(utf16leUnits data).map scalarChar⟩
  else if enc = "utf-16-be" then ⟨(utf16beUnits data).map scalarChar⟩
  else if enc = "utf-8-sig" then ⟨(stripUtf8Sig data).map utf8Byte⟩
  else ⟨data.map utf8Byte⟩

/-- Modelled from the spec: whether a codec name is known to Python (an
unknown name makes `bytes.decode` raise `LookupError`; in particular the
pseudo-name `"auto"` is not a codec). -/
def decodeSupported (enc : String) : Bool :=
  enc ∈ ["utf-8", "utf-8-sig", "utf-16-le", "utf-16-be", "utf-16",
         "ascii", "latin-1"]

/-! Section: FileManager — src/src/managers/file_manager.py

The file system is modelled as a `World`: the single monitored path always
exists (no claim exercises the missing-file branches) and holds a file with an
identity pair (`st_dev`, `st_ino`) and a byte content.  An open handle refers
to the file at the path; the rotation branch, which is the only place where
the handle's inode could differ from the path's, reopens before any read. -/

/-- The monitored file: its OS identity pair and its current bytes. -/
structure World where
  ident : Nat × Nat
  data : List Nat
  deriving Repr, DecidableEq

/-- State of `FileManager` (`__init__`, lines 26–41).  `fh_open` models
`self._fh is not None`; `cb_registered` models
`self._truncation_callback is not None`. -/
structure FileManager where
  encoding : String
  detected : Option String
  fh_open : Bool
  inode : Option (Nat × Nat)
  pos : Nat
  last_file_size : Nat
  cb_registered : Bool
  deriving Repr, DecidableEq

/-- `FileManager.__init__` with `DEFAULT_ENCODING = "auto"`
(src/src/utils/constants.py). -/
def FileManager.mkInit (encoding : String := "auto") : FileManager :=
  { encoding := encoding
    detected := none
    fh_open := false
    inode := none
    pos := 0
    last_file_size := 0
    cb_registered := false }

/-- `FileManager._encoding_from_bom` (lines 43–70): inspect the first 4 bytes;
`None` when the file is empty or no BOM signature is recognised. -/
def encoding_from_bom (data : List Nat) : Option String :=
  let head := data.take 4
  if head = [] then none
  else if [0xff, 0xfe].isPrefixOf head then some "utf-16-le"
  else if [0xfe, 0xff].isPrefixOf head then some "utf-16-be"
  else if [0xef, 0xbb, 0xbf].isPrefixOf head then some "utf-8-sig"
  else none

/-- `FileManager.open` (lines 72–107).  Note: the `start_at_end` argument is
ignored by this revision (docstring: "legacy, not used"); the method always
seeks to 0 ("Always start from beginning for initial load"). -/
def FileManager.openFile (s : FileManager) (w : World)
    (start_at_end : Bool := false) : FileManager :=
  let _ := start_at_end
  -- self.close(); open(self.path, "rb"); record identity from os.fstat
  let s := { s with fh_open := true, inode := some w.ident }
  -- auto-detect encoding (BOM first), only when not already detected
  let s :=
    if s.encoding = "auto" ∧ s.detected = none then
      let enc := (encoding_from_bom w.data).getD "utf-8"
      { s with detected := some enc, encoding := enc }
    else s
  -- self._fh.seek(0); self._pos = 0
  let s := { s with pos := 0 }
  -- self._last_file_size = os.path.getsize(self.path)
  { s with last_file_size := w.data.length }

/-- `FileManager.set_truncation_callback` (lines 132–139). -/
def FileManager.set_truncation_callback (s : FileManager) : FileManager :=
  { s with cb_registered := true }

/-- `FileManager._analyze_content_encoding` (lines 141–171): BOM signatures
first, then the NUL-byte-ratio heuristic.  The float comparisons
`nul_ratio > 0.25` and `nul_ratio < 0.05` are rendered as the exact rational
tests `4 * nul > len` and `20 * nul < len`, which agree with the Python
double-precision comparisons for every byte count below 2^50. -/
def FileManager.analyze_content_encoding (s : FileManager) (data : List Nat) :
    String :=
  if data = [] then s.encoding
  else if [0xff, 0xfe].isPrefixOf data then "utf-16-le"
  else if [0xfe, 0xff].isPrefixOf data then "utf-16-be"
  else if [0xef, 0xbb, 0xbf].isPrefixOf data then "utf-8-sig"
  else
    let nul := data.count 0
    if 4 * nul > data.length then "utf-16-le"
    else if 20 * nul < data.length then "utf-8"
    else s.encoding

/-- `FileManager._check_rotation_or_truncate` (lines 206–246).  Returns the
new state and whether the truncation callback was invoked.  The float test
`current_size < self._last_file_size * 0.5` is rendered as
`2 * current_size < last_file_size` (exact for sizes below 2^52). -/
def FileManager.check_rotation_or_truncate (s : FileManager) (w : World) :
    FileManager × Bool :=
  -- os.stat(self.path): the file is present in the model
  let ident := w.ident
  let current_size := w.data.length
  if s.inode.isSome ∧ s.inode ≠ some ident then
    -- file rotated/recreated: reopen from the beginning and return
    ({ s.openFile w false with last_file_size := current_size }, false)
  else if s.fh_open then
    -- os.fstat on the open handle; same inode as the path here
    let size := w.data.length
    if size < s.pos then
      -- truncation: seek(0), reset _pos, maybe fire the callback; the
      -- branch and the method's final line both store current_size into
      -- _last_file_size, collapsed here into one update
      let fired := decide (0 < s.last_file_size) &&
        decide (2 * current_size < s.last_file_size) && s.cb_registered
      ({ s with pos := 0, last_file_size := current_size }, fired)
    else ({ s with last_file_size := current_size }, false)
  else ({ s with last_file_size := current_size }, false)

/-- The tail of `FileManager.read_new_text` (lines 385–402): continuous
encoding detection on the bytes just read, then decoding with the
`LookupError` fallback to UTF-8. -/
def FileManager.read_decode (s : FileManager) (data : List Nat) :
    String × FileManager :=
  let sugg := s.analyze_content_encoding data
  let s :=
    if sugg ≠ s.encoding then
      { s with detected := some sugg, encoding := sugg }
    else s
  if decodeSupported s.encoding then
    (pyDecode s.encoding data, s)
  else
    -- LookupError fallback to UTF-8
    if s.detected ≠ some "utf-8" then
      (pyDecode "utf-8" data, { s with detected := some "utf-8", encoding := "utf-8" })
    else
      (pyDecode "utf-8" data, s)

/-- `FileManager.read_new_text` (lines 349–402).  Returns the decoded new
text, the new state, and whether the truncation callback fired during the
embedded rotation/truncation check. -/
def FileManager.read_new_text (s : FileManager) (w : World) :
    String × FileManager × Bool :=
  -- if not self._fh: self.open()  (open cannot fail in the model)
  let s := if ¬s.fh_open then s.openFile w else s
  let r := s.check_rotation_or_truncate w
  let s := r.1
  let fired := r.2
  if w.data.length ≤ s.pos then ("", s, fired)
  else
    -- seek to _pos and read to end-of-file
    let data := w.data.drop s.pos
    if data = [] then ("", s, fired)
    else
      -- self._pos = self._fh.tell()
      let s := { s with pos := w.data.length }
      let d := s.read_decode data
      (d.1, d.2, fired)

/-! Section: TailReader — the legacy tailer in src/FileUpdater.py (class at
line 755).  Its `open` (lines 807–839) honours `start_at_end`. -/

/-- State of `TailReader` (`__init__`, lines 764–776). -/
structure TailReader where
  encoding : String
  fh_open : Bool
  inode : Option (Nat × Nat)
  pos : Nat
  deriving Repr, DecidableEq

/-- `TailReader.open` (src/FileUpdater.py lines 807–839): BOM auto-detection,
then seek to end-of-file when `start_at_end` else to 0. -/
def TailReader.openFile (s : TailReader) (w : World)
    (start_at_end : Bool := true) : TailReader :=
  let s := { s with fh_open := true, inode := some w.ident }
  let s :=
    if s.encoding = "auto" then
      { s with encoding := (encoding_from_bom w.data).getD "utf-8" }
    else s
  if start_at_end then { s with pos := w.data.length }
  else { s with pos := 0 }

/-! Section: The line buffer — Python `collections.deque`

`src/FileUpdater.py` line 988 creates the buffer as
`collections.deque(maxlen=MAX_LINES_DEFAULT)` (`MAX_LINES_DEFAULT = 10_000`)
and `_buffer_trim` (lines 1824–1834) re-creates it with
`maxlen = max(1000, int(self.max_lines.get() or MAX_LINES_DEFAULT))`.
`src/src/ui/main_window.py` line 102 instead creates
`collections.deque()` with no `maxlen` ("no size limit") and never trims.

`PyDeque` models `collections.deque` restricted to the operations the
repository uses: `append` (via `extend`) and construction from an iterable.
A bounded deque discards from the opposite (left/oldest) end whenever the
bound is exceeded. -/

/-- Python `collections.deque`, possibly bounded by `maxlen`. -/
structure PyDeque where
  maxlen : Option Nat
  items : List String
  deriving Repr, DecidableEq

/-- `deque.append(x)`: add at the right; when `maxlen` is set, discard from
the left so that at most `maxlen` items remain. -/
def PyDeque.push (d : PyDeque) (x : String) : PyDeque :=
  match d.maxlen with
  | none => { d with items := d.items ++ [x] }
  | some m =>
    let l := d.items ++ [x]
    { d with items := l.drop (l.length - m) }

/-- `deque.extend(xs)`: append each element in order. -/
def PyDeque.extend (d : PyDeque) (xs : List String) : PyDeque :=
  xs.foldl PyDeque.push d

/-- `collections.deque(iterable, maxlen)`: keep only the last `maxlen`
elements of the iterable when bounded. -/
def dequeOf (xs : List String) (maxlen : Option Nat) : PyDeque :=
  match maxlen with
  | none => ⟨none, xs⟩
  | some m => ⟨some m, xs.drop (xs.length - m)⟩

/-- The FileUpdater buffer at start-up:
`collections.deque(maxlen=MAX_LINES_DEFAULT)` (line 988). -/
def fileUpdaterBuffer : PyDeque := ⟨some 10000, []⟩

/-- The main_window buffer at start-up: `collections.deque()` — unbounded
(src/src/ui/main_window.py line 102). -/
def mainWindowBuffer : PyDeque := ⟨none, []⟩

/-- `LogViewerApp._buffer_trim` (src/FileUpdater.py lines 1824–1834):
`target = max(1000, int(self.max_lines.get() or MAX_LINES_DEFAULT))`; when the
current `maxlen` differs, re-create the deque with the new `maxlen`.  A
`max_lines` value of 0 is falsy in Python, so `or` substitutes the default
10000. -/
def buffer_trim (max_lines : Nat) (d : PyDeque) : PyDeque :=
  let target := max 1000 (if max_lines = 0 then 10000 else max_lines)
  if d.maxlen ≠ some target then dequeOf d.items (some target) else d

/-- The fail-closed invariant of `FilterManager`: an error is only ever
recorded together with a non-empty filter text (`_compile_regex` sets
`last_error` only under `self.current_filter` truthy). -/
def FilterInvariant (s : FilterManager) : Prop :=
  s.last_error ≠ none → s.current_filter ≠ ""

/-! Section: Auxiliary lemmas -/

theorem pyDecode_nil (enc : String) : pyDecode enc [] = "" := by
  unfold pyDecode
  split_ifs <;> decide

theorem pyDecode_of_unsupported (enc : String) (data : List Nat)
    (h : decodeSupported enc = false) :
    pyDecode enc data = pyDecode "utf-8" data := by
  have h' : ¬(enc = "utf-8" ∨ enc = "utf-8-sig" ∨ enc = "utf-16-le" ∨
      enc = "utf-16-be" ∨ enc = "utf-16" ∨ enc = "ascii" ∨ enc = "latin-1") := by
    simpa [decodeSupported] using h
  push_neg at h'
  simp [pyDecode, h'.1, h'.2.1, h'.2.2.1, h'.2.2.2.1]

theorem compile_regex_invariant (s : FilterManager) :
    FilterInvariant s.compile_regex := by
  unfold FilterInvariant FilterManager.compile_regex
  dsimp only
  split_ifs with h1 h2 <;> simp_all

theorem check_trunc_eq (s : FileManager) (w : World)
    (hfh : s.fh_open = true) (hin : s.inode = some w.ident)
    (htr : w.data.length < s.pos) :
    s.check_rotation_or_truncate w =
      ({ s with pos := 0, last_file_size := w.data.length },
       decide (0 < s.last_file_size) &&
         decide (2 * w.data.length < s.last_file_size) && s.cb_registered) := by
  unfold FileManager.check_rotation_or_truncate
  have h1 : ¬(s.inode.isSome ∧ s.inode ≠ some w.ident) := by simp [hin]
  rw [if_neg h1, if_pos hfh]
  simp only [htr, if_pos]

theorem check_no_trunc_eq (s : FileManager) (w : World)
    (hfh : s.fh_open = true) (hin : s.inode = some w.ident)
    (hle : s.pos ≤ w.data.length) :
    s.check_rotation_or_truncate w =
      ({ s with last_file_size := w.data.length }, false) := by
  unfold FileManager.check_rotation_or_truncate
  have h1 : ¬(s.inode.isSome ∧ s.inode ≠ some w.ident) := by simp [hin]
  have h2 : ¬(w.data.length < s.pos) := Nat.not_lt.mpr hle
  rw [if_neg h1, if_pos hfh]
  simp only [h2, if_neg, if_false]

theorem read_decode_fst (s : FileManager) (data : List Nat) :
    (s.read_decode data).1 = pyDecode (s.read_decode data).2.encoding data := by
  unfold FileManager.read_decode
  dsimp only
  split_ifs <;>
    first
      | rfl
      | { refine (pyDecode_of_unsupported _ _ ?_).symm; simp_all }

theorem read_decode_pos (s : FileManager) (data : List Nat) :
    (s.read_decode data).2.pos = s.pos := by
  unfold FileManager.read_decode
  dsimp only
  split_ifs <;> rfl

theorem read_new_text_no_trunc_eq (s : FileManager) (w : World)
    (hfh : s.fh_open = true) (hin : s.inode = some w.ident)
    (hlt : s.pos < w.data.length) :
    s.read_new_text w =
      (let s1 : FileManager :=
         { s with last_file_size := w.data.length, pos := w.data.length }
       let d := s1.read_decode (w.data.drop s.pos)
       (d.1, d.2, false)) := by
  have h2 : ¬(w.data.length ≤ s.pos) := Nat.not_le.mpr hlt
  have h3 : ¬(w.data.drop s.pos = []) := by
    intro hc
    have := List.drop_eq_nil_iff.mp hc
    omega
  unfold FileManager.read_new_text
  dsimp only
  rw [show (if ¬s.fh_open = true then s.openFile w else s) = s from
    if_neg (by simp [hfh])]
  rw [check_no_trunc_eq s w hfh hin (Nat.le_of_lt hlt)]
  dsimp only
  rw [if_neg h2, if_neg h3]

theorem read_new_text_trunc_eq (s : FileManager) (w : World)
    (hfh : s.fh_open = true) (hin : s.inode = some w.ident)
    (htr : w.data.length < s.pos) :
    s.read_new_text w =
      (let fired := decide (0 < s.last_file_size) &&
         decide (2 * w.data.length < s.last_file_size) && s.cb_registered
       if w.data.length = 0 then
         ("", { s with pos := 0, last_file_size := w.data.length }, fired)
       else
         let s1 : FileManager :=
           { s with pos := w.data.length, last_file_size := w.data.length }
         let d := s1.read_decode w.data
         (d.1, d.2, fired)) := by
  unfold FileManager.read_new_text
  dsimp only
  rw [show (if ¬s.fh_open = true then s.openFile w else s) = s from
    if_neg (by simp [hfh])]
  rw [check_trunc_eq s w hfh hin htr]
  dsimp only
  by_cases hM : w.data.length = 0
  · rw [if_pos (by omega : w.data.length ≤ 0), if_pos hM]
  · rw [if_neg (by omega : ¬(w.data.length ≤ 0)), if_neg hM]
    rw [List.drop_zero]
    rw [if_neg (by intro hc; exact hM (by simp [hc]))]

theorem analyze_nul_heavy (s : FileManager) (data : List Nat)
    (hne : data ≠ [])
    (hnul : 4 * data.count 0 > data.length)
    (hbe : [0xfe, 0xff].isPrefixOf data = false)
    (hsig : [0xef, 0xbb, 0xbf].isPrefixOf data = false) :
    s.analyze_content_encoding data = "utf-16-le" := by
  unfold FileManager.analyze_content_encoding
  rw [if_neg hne]
  by_cases hle : [0xff, 0xfe].isPrefixOf data = true
  · rw [if_pos hle]
  · rw [if_neg hle, if_neg (by simp [hbe]), if_neg (by simp [hsig])]
    dsimp only
    rw [if_pos hnul]

theorem analyze_nul_light (s : FileManager) (data : List Nat)
    (hne : data ≠ [])
    (hff : [0xff, 0xfe].isPrefixOf data = false)
    (hbe : [0xfe, 0xff].isPrefixOf data = false)
    (hsig : [0xef, 0xbb, 0xbf].isPrefixOf data = false)
    (hnul : 20 * data.count 0 < data.length) :
    s.analyze_content_encoding data = "utf-8" := by
  unfold FileManager.analyze_content_encoding
  rw [if_neg hne, if_neg (by simp [hff]), if_neg (by simp [hbe]),
    if_neg (by simp [hsig])]
  dsimp only
  rw [if_neg (by omega : ¬(4 * data.count 0 > data.length)), if_pos hnul]

theorem read_decode_switch_utf16 (s : FileManager) (data : List Nat)
    (henc : s.encoding = "utf-8" ∨ s.encoding = "utf-8-sig")
    (hne : data ≠ [])
    (hnul : 4 * data.count 0 > data.length)
    (hbe : [0xfe, 0xff].isPrefixOf data = false)
    (hsig : [0xef, 0xbb, 0xbf].isPrefixOf data = false) :
    (s.read_decode data).2.encoding = "utf-16-le" ∧
    (s.read_decode data).1 = pyDecode "utf-16-le" data := by
  have ha := analyze_nul_heavy s data hne hnul hbe hsig
  have hneq : s.analyze_content_encoding data ≠ s.encoding := by
    rw [ha]; rcases henc with h | h <;> rw [h] <;> decide
  unfold FileManager.read_decode
  dsimp only
  rw [if_pos hneq, ha]
  rw [if_pos (by decide : decodeSupported "utf-16-le" = true)]
  exact ⟨rfl, rfl⟩

theorem read_decode_switch_utf8 (s : FileManager) (data : List Nat)
    (henc : s.encoding = "utf-16-le")
    (hne : data ≠ [])
    (hff : [0xff, 0xfe].isPrefixOf data = false)
    (hbe : [0xfe, 0xff].isPrefixOf data = false)
    (hsig : [0xef, 0xbb, 0xbf].isPrefixOf data = false)
    (hnul : 20 * data.count 0 < data.length) :
    (s.read_decode data).2.encoding = "utf-8" := by
  have ha := analyze_nul_light s data hne hff hbe hsig hnul
  have hneq : s.analyze_content_encoding data ≠ s.encoding := by
    rw [ha, henc]; decide
  unfold FileManager.read_decode
  dsimp only
  rw [if_pos hneq, ha]
  rw [if_pos (by decide : decodeSupported "utf-8" = true)]

theorem isPrefixOf_take (p : List Nat) :
    ∀ (l : List Nat) (n : Nat), p.length ≤ n →
      p.isPrefixOf (l.take n) = p.isPrefixOf l := by
  induction p with
  | nil =>
    intro l n _
    have h1 : ∀ m : List Nat, ([] : List Nat).isPrefixOf m = true := by
      intro m; cases m <;> rfl
    rw [h1, h1]
  | cons a p ih =>
    intro l n h
    cases l with
    | nil => simp
    | cons b l' =>
      cases n with
      | zero => exact absurd h (by simp)
      | succ n' =>
        simp only [List.take, List.isPrefixOf]
        rw [ih l' n' (Nat.le_of_succ_le_succ h)]

theorem head2_of_leading_pair (x y : Nat) (data : List Nat)
    (h : [x, y].isPrefixOf data = true) :
    ∃ t, data = x :: y :: t := by
  cases data with
  | nil => simp [List.isPrefixOf] at h
  | cons a t =>
    cases t with
    | nil => simp [List.isPrefixOf] at h
    | cons b t' =>
      simp [List.isPrefixOf] at h
      exact ⟨t', by rw [h.1, h.2]⟩

theorem head3_of_leading_triple (x y z : Nat) (data : List Nat)
    (h : [x, y, z].isPrefixOf data = true) :
    ∃ t, data = x :: y :: z :: t := by
  cases data with
  | nil => simp [List.isPrefixOf] at h
  | cons a t =>
    cases t with
    | nil => simp [List.isPrefixOf] at h
    | cons b t' =>
      cases t' with
      | nil => simp [List.isPrefixOf] at h
      | cons c t'' =>
        simp [List.isPrefixOf] at h
        exact ⟨t'', by rw [h.1, h.2.1, h.2.2]⟩

theorem encoding_from_bom_eq (data : List Nat) :
    encoding_from_bom data =
      (if [0xff, 0xfe].isPrefixOf data = true then some "utf-16-le"
       else if [0xfe, 0xff].isPrefixOf data = true then some "utf-16-be"
       else if [0xef, 0xbb, 0xbf].isPrefixOf data = true then some "utf-8-sig"
       else none) := by
  cases data with
  | nil => decide
  | cons a t =>
    unfold encoding_from_bom
    dsimp only
    rw [if_neg (by simp : ¬((a :: t).take 4 = []))]
    rw [isPrefixOf_take [0xff, 0xfe] (a :: t) 4 (by decide),
      isPrefixOf_take [0xfe, 0xff] (a :: t) 4 (by decide),
      isPrefixOf_take [0xef, 0xbb, 0xbf] (a :: t) 4 (by decide)]

theorem openFile_auto_encoding (w : World) (b : Bool) :
    ((FileManager.mkInit "auto").openFile w b).encoding =
      (encoding_from_bom w.data).getD "utf-8" := by
  unfold FileManager.openFile FileManager.mkInit
  dsimp only
  rw [if_pos ⟨rfl, rfl⟩]

/-! Section: The claims -/

/-- C1 (corrected): the claim's `capacity=3` example is unreachable in the
program.  `_buffer_trim` clamps the trim target to
`max(1000, max_lines)`, so requesting a capacity of 3 on the FileUpdater
buffer yields an effective `maxlen` of 1000 and the four appended lines all
survive. -/
theorem claim1_counterexample :
    ((buffer_trim 3 fileUpdaterBuffer).extend ["A", "B", "C", "D"]).items ≠
      ["B", "C", "D"] := by
  decide

/-- C1 (amended): the FileUpdater line buffer is a `deque` with `maxlen`:
an append to a within-bound buffer keeps the size within bound and leaves a
suffix of the appended sequence (oldest-first eviction, order preserved);
re-creating the deque with a new bound re-trims immediately, keeping the
newest lines; a raw deque with `maxlen=3` does leave exactly `[B, C, D]`
after appending A, B, C, D; but `_buffer_trim` clamps the bound to at least
1000, and the current main_window buffer (no `maxlen`) never evicts at
all. -/
theorem claim1_buffer_eviction :
    (∀ (d : PyDeque) (x : String) (m : Nat),
      d.maxlen = some m → d.items.length ≤ m →
      (d.push x).items.length ≤ m ∧ (d.push x).items <:+ d.items ++ [x]) ∧
    (∀ (xs : List String) (m : Nat),
      (dequeOf xs (some m)).items.length ≤ m ∧
        (dequeOf xs (some m)).items <:+ xs) ∧
    (PyDeque.extend ⟨some 3, []⟩ ["A", "B", "C", "D"]).items = ["B", "C", "D"] ∧
    (∀ d : PyDeque, (buffer_trim 3 d).maxlen = some 1000) ∧
    (∀ (d : PyDeque) (x : String), d.maxlen = none →
      (d.push x).items = d.items ++ [x]) := by
  refine ⟨?_, ?_, by decide, ?_, ?_⟩
  · intro d x m hm _hlen
    unfold PyDeque.push
    rw [hm]
    dsimp only
    refine ⟨?_, List.drop_suffix _ _⟩
    rw [List.length_drop, List.length_append]
    omega
  · intro xs m
    unfold dequeOf
    dsimp only
    refine ⟨?_, List.drop_suffix _ _⟩
    rw [List.length_drop]
    omega
  · intro d
    have ht : (1000 : Nat) ⊔ (if (3 : Nat) = 0 then 10000 else 3) = 1000 := by
      norm_num
    unfold buffer_trim
    dsimp only
    rw [ht]
    split_ifs with h
    · rfl
    · exact not_not.mp h
  · intro d x h
    unfold PyDeque.push
    rw [h]

/-- Witness for C1 (amended): appending to a full two-element deque keeps the
size at 2 and yields a suffix of the appended sequence. -/
theorem claim1_buffer_eviction_witness :
    ((PyDeque.mk (some 2) ["a", "b"]).push "c").items.length ≤ 2 ∧
    ((PyDeque.mk (some 2) ["a", "b"]).push "c").items <:+ ["a", "b"] ++ ["c"] :=
  claim1_buffer_eviction.1 ⟨some 2, ["a", "b"]⟩ "c" 2 rfl (by decide)

/-- C2 (confirmed): filtering fails closed on a bad regex.  In every
reachable state (the invariant that an error implies a non-empty filter is
established at `__init__` and preserved by `set_filter` and `clear_filter`),
a set `last_error` forces `matches` to return false for every line and every
mode; the pattern `"("` in regex mode sets the error, `matches("anything")`
is false, a repeated `set_filter` with the same text keeps the error, and a
compiling pattern clears it. -/
theorem claim2_fail_closed :
    FilterInvariant FilterManager.init ∧
    (∀ (s : FilterManager) (t : String) (m : Option String) (c : Option Bool),
      FilterInvariant s → FilterInvariant (s.set_filter t m c).2) ∧
    (∀ s : FilterManager, FilterInvariant s.clear_filter) ∧
    (∀ (s : FilterManager) (line : String),
      FilterInvariant s → s.last_error ≠ none → s.matches line = false) ∧
    ((FilterManager.init.set_filter "(" (some "regex") none).2.has_error =
        true ∧
      (FilterManager.init.set_filter "(" (some "regex") none).2.matches
        "anything" = false ∧
      ((FilterManager.init.set_filter "(" (some "regex") none).2.set_filter
        "(" none none).2.has_error = true ∧
      ((FilterManager.init.set_filter "(" (some "regex") none).2.set_filter
        "ERROR" none none).2.has_error = false) := by
  refine ⟨fun h => absurd rfl h, ?_, ?_, ?_, by decide⟩
  · intro s t m c hs
    rcases m with _ | mv <;> rcases c with _ | cv <;>
      (simp only [FilterManager.set_filter]; split_ifs <;>
        first
          | exact compile_regex_invariant _
          | exact hs)
  · intro s h
    exact absurd rfl h
  · intro s line hinv herr
    have h1 : ¬(s.current_filter = "") := hinv herr
    have h2 : s.last_error.isSome = true := Option.ne_none_iff_isSome.mp herr
    unfold FilterManager.matches
    rw [if_neg h1, if_pos h2]

/-- Witness for C2: the engine that failed to compile `"("` rejects a
concrete line. -/
theorem claim2_fail_closed_witness :
    (FilterManager.init.set_filter "(" (some "regex") none).2.matches "boom" =
      false :=
  claim2_fail_closed.2.2.2.1
    (FilterManager.init.set_filter "(" (some "regex") none).2 "boom"
    (fun _ => by decide) (by decide)

/-- C6 (code bug): exact-mode matching never strips the trailing line
terminator.  The caller (`_append`, `splitlines(True)`) hands lines with
their terminators to `matches`, and `_exact_match` compares the raw line, so
a line whose content equals the filter text up to a trailing newline does
NOT match, contrary to the spec's "stripped consistently before comparison";
only the terminator-free form matches. -/
theorem claim6_exact_mode_keeps_terminator :
    (FilterManager.init.set_filter "foo" (some "exact") none).2.matches
        "foo\n" = false ∧
    (FilterManager.init.set_filter "foo" (some "exact") none).2.matches
        "foo" = true := by
  decide

/-- C7 (corrected): a `set_filter` call that changes only the mode (or
only the case flag) while keeping the same text returns `False` even though
the effective filter changed. -/
theorem claim7_counterexample :
    ((FilterManager.init.set_filter "foo" none none).2.set_filter "foo"
        (some "starts_with") none).1 = false ∧
    ((FilterManager.init.set_filter "foo" none none).2.set_filter "foo"
        (some "starts_with") none).2.current_mode ≠
      (FilterManager.init.set_filter "foo" none none).2.current_mode := by
  decide

/-- C7 (amended): `set_filter` returns `True` exactly when the supplied
text differs from the filter text in force before the call; mode and
case-sensitivity updates are applied but never reported. -/
theorem claim7_set_filter_reports_text_change (s : FilterManager) (t : String)
    (m : Option String) (c : Option Bool) :
    (s.set_filter t m c).1 = true ↔ t ≠ s.current_filter := by
  rcases m with _ | mv <;> rcases c with _ | cv <;>
    (simp only [FilterManager.set_filter]; split_ifs with h <;> simp [h])

/-- Witness for C7 (amended): setting a fresh text from the initial state
reports a change. -/
theorem claim7_set_filter_reports_text_change_witness :
    (FilterManager.init.set_filter "x" none none).1 = true :=
  (claim7_set_filter_reports_text_change FilterManager.init "x" none
    none).mpr (by decide)

/-- C8 (corrected): with `mode=starts_with`, pattern `"WARN"`, and the
engine's default case-insensitive setting, the line `"warning: low disk"`
DOES match — its lowercase form begins with `"warn"` — contradicting the
spec's `match=false`. -/
theorem claim8_counterexample :
    (FilterManager.init.set_filter "WARN" (some "starts_with") none).2.matches
      "warning: low disk" = true := by
  decide

/-- C8 (amended): the starts-with test is anchored at position 0 but
case-folded by default: `"WARN"` matches `"warning: low disk"` under the
default case-insensitive setting and fails to match only when
`case_sensitive` is set. -/
theorem claim8_starts_with_case :
    (FilterManager.init.set_filter "WARN" (some "starts_with") none).2.matches
        "warning: low disk" = true ∧
    (FilterManager.init.set_filter "WARN" (some "starts_with")
        (some true)).2.matches "warning: low disk" = false := by
  decide

/-- C9 (corrected): the current `FileManager.open` ignores `start_at_end`
— opening a two-byte file with `start_at_end=True` leaves the offset at 0,
not at end-of-file. -/
theorem claim9_counterexample :
    ¬(((FileManager.mkInit "utf-8").openFile ⟨(1, 1), [65, 66]⟩ true).pos =
      ([65, 66] : List Nat).length) := by
  decide

/-- C9 (amended): the current `FileManager.open` always sets the offset
to 0 whatever `start_at_end` says; only the legacy `TailReader.open` honours
the argument (end-of-file when true, 0 when false). -/
theorem claim9_open_offset :
    (∀ (s : FileManager) (w : World) (b : Bool), (s.openFile w b).pos = 0) ∧
    (∀ (s : TailReader) (w : World),
      (s.openFile w true).pos = w.data.length ∧
        (s.openFile w false).pos = 0) := by
  constructor
  · intro s w b
    unfold FileManager.openFile
    by_cases h : s.encoding = "auto" ∧ s.detected = none <;> simp [h]
  · intro s w
    constructor <;>
      (unfold TailReader.openFile;
        by_cases h : s.encoding = "auto" <;> simp [h])

/-- Witness for C9 (amended): the current open leaves the offset at 0 on a
concrete two-byte file even with `start_at_end=True`. -/
theorem claim9_open_offset_witness :
    ((FileManager.mkInit "utf-8").openFile ⟨(1, 1), [65, 66]⟩ true).pos = 0 :=
  claim9_open_offset.1 (FileManager.mkInit "utf-8") ⟨(1, 1), [65, 66]⟩ true

/-- C4 (confirmed): BOM classification is exact and total.  Opening with
`encoding="auto"` classifies the file by its byte prefix: `FF FE` →
`utf-16-le`, `FE FF` → `utf-16-be`, `EF BB BF` → `utf-8-sig`, and everything
else (including the empty file) → `utf-8`.  Since the detector only reads the
first 4 bytes, classifying the whole content and classifying its 4-byte head
agree. -/
theorem claim4_bom_detection (data : List Nat) :
    ([0xff, 0xfe].isPrefixOf data = true →
      ((FileManager.mkInit "auto").openFile ⟨(0, 0), data⟩ false).encoding =
        "utf-16-le") ∧
    ([0xfe, 0xff].isPrefixOf data = true →
      ((FileManager.mkInit "auto").openFile ⟨(0, 0), data⟩ false).encoding =
        "utf-16-be") ∧
    ([0xef, 0xbb, 0xbf].isPrefixOf data = true →
      ((FileManager.mkInit "auto").openFile ⟨(0, 0), data⟩ false).encoding =
        "utf-8-sig") ∧
    ([0xff, 0xfe].isPrefixOf data = false →
      [0xfe, 0xff].isPrefixOf data = false →
      [0xef, 0xbb, 0xbf].isPrefixOf data = false →
      ((FileManager.mkInit "auto").openFile ⟨(0, 0), data⟩ false).encoding =
        "utf-8") := by
  refine ⟨?_, ?_, ?_, ?_⟩
  · intro h
    rw [openFile_auto_encoding ⟨(0, 0), data⟩ false]
    dsimp only
    rw [encoding_from_bom_eq, if_pos h]
    rfl
  · intro h
    obtain ⟨t, rfl⟩ := head2_of_leading_pair 0xfe 0xff data h
    rw [openFile_auto_encoding ⟨(0, 0), 0xfe :: 0xff :: t⟩ false]
    dsimp only
    rw [encoding_from_bom_eq]
    rw [if_neg (by simp [List.isPrefixOf]), if_pos h]
    rfl
  · intro h
    obtain ⟨t, rfl⟩ := head3_of_leading_triple 0xef 0xbb 0xbf data h
    rw [openFile_auto_encoding ⟨(0, 0), 0xef :: 0xbb :: 0xbf :: t⟩ false]
    dsimp only
    rw [encoding_from_bom_eq]
    rw [if_neg (by simp [List.isPrefixOf]), if_neg (by simp [List.isPrefixOf]),
      if_pos h]
    rfl
  · intro h1 h2 h3
    rw [openFile_auto_encoding ⟨(0, 0), data⟩ false]
    dsimp only
    rw [encoding_from_bom_eq,
      if_neg (by simp [h1]), if_neg (by simp [h2]), if_neg (by simp [h3])]
    rfl

/-- Witness for C4: a file starting `FF FE` is classified `utf-16-le`, and a
BOM-less ASCII file is classified `utf-8`. -/
theorem claim4_bom_detection_witness :
    ((FileManager.mkInit "auto").openFile ⟨(0, 0), [0xff, 0xfe, 7]⟩
        false).encoding = "utf-16-le" ∧
    ((FileManager.mkInit "auto").openFile ⟨(0, 0), [104, 105]⟩
        false).encoding = "utf-8" :=
  ⟨(claim4_bom_detection [0xff, 0xfe, 7]).1 (by decide),
   (claim4_bom_detection [104, 105]).2.2.2 (by decide) (by decide) (by decide)⟩

/-- C5 (corrected): the claim as frozen is false in two ways.  First, the
BOM check in `_analyze_content_encoding` takes priority over the NUL-ratio
heuristic: a UTF-8 tailer reading non-empty bytes that are more than 25% NUL
but begin with `EF BB BF` switches to `utf-8-sig`, not `utf-16-le`.  Second,
the switched encoding is not used for "all subsequent reads": the heuristic
re-runs on every read, and a later mostly-ASCII read (under 5% NUL, no BOM)
switches a `utf-16-le` tailer back to `utf-8`. -/
theorem claim5_counterexample :
    (let s : FileManager := FileManager.mk "utf-8" none true (some (1, 1)) 0 0 false
     let w : World := ⟨(1, 1), [0xef, 0xbb, 0xbf, 0, 0]⟩
     4 * w.data.count 0 > w.data.length ∧ w.data ≠ [] ∧
       (s.read_new_text w).2.1.encoding ≠ "utf-16-le" ∧
       (s.read_new_text w).2.1.encoding = "utf-8-sig") ∧
    (let s : FileManager :=
       FileManager.mk "utf-16-le" none true (some (1, 1)) 0 0 false
     let w : World := ⟨(1, 1), [65, 66, 67]⟩
     (s.read_new_text w).2.1.encoding = "utf-8") := by
  decide

/-- C5 (amended): when a tailer whose current encoding is a UTF-8 variant
reads non-empty bytes with more than 25% NUL that do not begin with a
`FE FF` or `EF BB BF` BOM, it switches to `utf-16-le` and decodes this read
with it; the switched encoding then stays until the per-read heuristic
changes it again — in particular a later BOM-less read with less than 5% NUL
switches a `utf-16-le` tailer to `utf-8`. -/
theorem claim5_nul_heuristic :
    (∀ (s : FileManager) (w : World),
      s.fh_open = true → s.inode = some w.ident →
      (s.encoding = "utf-8" ∨ s.encoding = "utf-8-sig") →
      s.pos < w.data.length →
      4 * (w.data.drop s.pos).count 0 > (w.data.drop s.pos).length →
      [0xfe, 0xff].isPrefixOf (w.data.drop s.pos) = false →
      [0xef, 0xbb, 0xbf].isPrefixOf (w.data.drop s.pos) = false →
      (s.read_new_text w).2.1.encoding = "utf-16-le" ∧
      (s.read_new_text w).1 = pyDecode "utf-16-le" (w.data.drop s.pos)) ∧
    (∀ (s : FileManager) (w : World),
      s.fh_open = true → s.inode = some w.ident →
      s.encoding = "utf-16-le" →
      s.pos < w.data.length →
      20 * (w.data.drop s.pos).count 0 < (w.data.drop s.pos).length →
      [0xff, 0xfe].isPrefixOf (w.data.drop s.pos) = false →
      [0xfe, 0xff].isPrefixOf (w.data.drop s.pos) = false →
      [0xef, 0xbb, 0xbf].isPrefixOf (w.data.drop s.pos) = false →
      (s.read_new_text w).2.1.encoding = "utf-8") := by
  constructor
  · intro s w hfh hin henc hlt hnul hbe hsig
    have hne : w.data.drop s.pos ≠ [] := by
      intro hc
      have := List.drop_eq_nil_iff.mp hc
      omega
    rw [read_new_text_no_trunc_eq s w hfh hin hlt]
    dsimp only
    exact read_decode_switch_utf16 _ _ henc hne hnul hbe hsig
  · intro s w hfh hin henc hlt hnul hff hbe hsig
    have hne : w.data.drop s.pos ≠ [] := by
      intro hc
      have := List.drop_eq_nil_iff.mp hc
      omega
    rw [read_new_text_no_trunc_eq s w hfh hin hlt]
    dsimp only
    exact read_decode_switch_utf8 _ _ henc hne hff hbe hsig hnul

/-- Witness for C5 (amended): a UTF-8 tailer reading `00 00 41 00` (75% NUL,
no BOM) switches to `utf-16-le` and decodes the read with it. -/
theorem claim5_nul_heuristic_witness :
    ((FileManager.mk "utf-8" none true (some (1, 1)) 0 0 false).read_new_text
        ⟨(1, 1), [0, 0, 65, 0]⟩).2.1.encoding = "utf-16-le" :=
  (claim5_nul_heuristic.1
    (FileManager.mk "utf-8" none true (some (1, 1)) 0 0 false)
    ⟨(1, 1), [0, 0, 65, 0]⟩ rfl rfl (Or.inl rfl) (by decide) (by decide)
    (by decide) (by decide)).1

/-- C3 (confirmed): truncation recovery.  For every open tailer whose
stored offset exceeds the size of the (same-identity) file, the
rotation/truncation check resets the offset to 0, and the `read_new_text`
call returns the entire new content of the file — all `M = w.data.length`
bytes, decoded with the tailer's (possibly heuristically updated) encoding —
leaving the offset at `M`. -/
theorem claim3_truncation_recovery (s : FileManager) (w : World)
    (hfh : s.fh_open = true) (hin : s.inode = some w.ident)
    (htr : w.data.length < s.pos) :
    (s.check_rotation_or_truncate w).1.pos = 0 ∧
    (s.read_new_text w).1 = pyDecode (s.read_new_text w).2.1.encoding w.data ∧
    (s.read_new_text w).2.1.pos = w.data.length := by
  have hread := read_new_text_trunc_eq s w hfh hin htr
  refine ⟨by rw [check_trunc_eq s w hfh hin htr], ?_, ?_⟩
  · rw [hread]
    dsimp only
    by_cases hM : w.data.length = 0
    · rw [if_pos hM]
      dsimp only
      rw [List.length_eq_zero.mp hM, pyDecode_nil]
    · rw [if_neg hM]
      dsimp only
      exact read_decode_fst _ _
  · rw [hread]
    dsimp only
    by_cases hM : w.data.length = 0
    · rw [if_pos hM]
      dsimp only
      omega
    · rw [if_neg hM]
      dsimp only
      rw [read_decode_pos]

/-- Witness for C3: a tailer at offset 10 over a same-identity file truncated
to the two bytes `"ab"` rereads the whole file. -/
theorem claim3_truncation_recovery_witness :
    ((FileManager.mk "utf-8" none true (some (1, 1)) 10 10 false).read_new_text
        ⟨(1, 1), [97, 98]⟩).1 =
      pyDecode
        ((FileManager.mk "utf-8" none true (some (1, 1)) 10 10
            false).read_new_text ⟨(1, 1), [97, 98]⟩).2.1.encoding
        [97, 98] :=
  (claim3_truncation_recovery
    (FileManager.mk "utf-8" none true (some (1, 1)) 10 10 false)
    ⟨(1, 1), [97, 98]⟩ rfl rfl (by decide)).2.1

/-- C10 (confirmed): truncation notification is thresholded.  When the
rotation/truncation check detects truncation (same identity, handle size
below the stored offset), the offset is always reset to 0, but the callback
reported by `read_new_text` fires exactly when the newly stat-ed size is less
than half of the last known size, the last known size was positive, and a
callback is registered.  (`current < last * 0.5` is the exact condition
`2 * current < last`.) -/
theorem claim10_truncation_callback_threshold (s : FileManager) (w : World)
    (hfh : s.fh_open = true) (hin : s.inode = some w.ident)
    (htr : w.data.length < s.pos) :
    (s.check_rotation_or_truncate w).1.pos = 0 ∧
    ((s.read_new_text w).2.2 = true ↔
      (0 < s.last_file_size ∧ 2 * w.data.length < s.last_file_size ∧
        s.cb_registered = true)) := by
  refine ⟨by rw [check_trunc_eq s w hfh hin htr], ?_⟩
  have hread := read_new_text_trunc_eq s w hfh hin htr
  rw [hread]
  dsimp only
  by_cases hM : w.data.length = 0
  · rw [if_pos hM]
    simp [and_assoc]
  · rw [if_neg hM]
    simp [and_assoc]

/-- Witness for C10: with last known size 10, a registered callback, and a
truncation to 2 bytes (2·2 < 10), the callback fires. -/
theorem claim10_truncation_callback_threshold_witness :
    ((FileManager.mk "utf-8" none true (some (1, 1)) 10 10 true).read_new_text
        ⟨(1, 1), [97, 98]⟩).2.2 = true :=
  (claim10_truncation_callback_threshold
    (FileManager.mk "utf-8" none true (some (1, 1)) 10 10 true)
    ⟨(1, 1), [97, 98]⟩ rfl rfl (by decide)).2.mpr (by decide)

end LogViewer
